import Mathlib

/-!
Verification of the keyboard-challenge-api leaderboard server.

The development shallowly embeds the score-submission / leaderboard-read /
clear path of `src/server.js` (the dual-storage Express server).  Request
bodies are modelled as records of optional typed fields (`none` = field
absent from the JSON body), JS truthiness of the destructured fields is made
explicit, numbers are modelled as rationals, and the stable JS
`Array.prototype.sort` with comparator `(a, b) => a.time - b.time` is
modelled by stable insertion sort on the time field.
-/

namespace KeyboardApi

/-- A score record, as built by the handler in `src/server.js`
(lines 222-228: `id: Date.now()`, truncated name, parsed time, defaulted
accuracy, ISO date string modelled as a timestamp). -/
structure ScoreRecord where
  id : Nat
  name : String
  time : ℚ
  accuracy : ℚ
  date : Nat
  deriving DecidableEq, Repr

/-- The sort comparator `(a, b) => a.time - b.time` of line 231, as the
ordering relation it induces on records. -/
def timeLe (a b : ScoreRecord) : Prop := a.time ≤ b.time

instance : DecidableRel timeLe := fun a b => inferInstanceAs (Decidable (a.time ≤ b.time))

instance : IsTotal ScoreRecord timeLe := ⟨fun a b => le_total a.time b.time⟩

instance : IsTrans ScoreRecord timeLe := ⟨fun _ _ _ hab hbc => le_trans hab hbc⟩

/-- A JSON body for `POST /api/score`.  A field that is absent from the
request is `none`; present fields are assumed well typed (string name,
numeric time and accuracy), which is the regime all functional claims about
the endpoint quantify over. -/
structure SubmitBody where
  name : Option String
  time : Option ℚ
  accuracy : Option ℚ
  deriving DecidableEq, Repr

/-- JS truthiness of the destructured `name` (line 192 `!name`):
`undefined` and the empty string are falsy. -/
def truthyName : Option String → Bool
  | none => false
  | some s => !(s == "")

/-- JS truthiness of the destructured `time` (line 192 `!time`):
`undefined` and the number 0 are falsy. -/
def truthyTime : Option ℚ → Bool
  | none => false
  | some t => !(t == 0)

/-- `accuracy || 100` (lines 206, 226): a falsy accuracy — absent, or the
number 0 — is replaced by the default. -/
def jsOrDefault : Option ℚ → ℚ → ℚ
  | none, d => d
  | some a, d => if a == 0 then d else a

/-- Lines 233-235: `if (memoryLeaderboard.length > 50) slice(0, 50)`. -/
def trimTo50 (l : List ScoreRecord) : List ScoreRecord :=
  if l.length > 50 then l.take 50 else l

/-- Lines 230-235 of `src/server.js`: push the new record, re-sort the whole
array ascending by time (JS sort is stable, hence stable insertion sort),
then trim to 50 entries. -/
def submitStep (lb : List ScoreRecord) (r : ScoreRecord) : List ScoreRecord :=
  trimTo50 (List.insertionSort timeLe (lb ++ [r]))

/-- JS `Array.prototype.findIndex`: index of the first element satisfying
the predicate, or -1 (line 244). -/
def jsFindIndex (p : ScoreRecord → Bool) : List ScoreRecord → Int
  | [] => -1
  | x :: xs =>
    if p x then 0
    else
      let r := jsFindIndex p xs
      if r = -1 then -1 else r + 1

/-- The mutable state of the server: the driver's connection flag
(`mongoose.connection.readyState === 1`), the persistent store's contents,
and the in-memory list `memoryLeaderboard`. -/
structure ServerState where
  mongoConnected : Bool
  mongo : List ScoreRecord
  memory : List ScoreRecord
  deriving DecidableEq, Repr

/-- The JSON responses the `POST /api/score` handler can produce:
400 with the `required` field list, 201 from the persistent branch, or 201
from the memory branch carrying `rank` and `totalPlayers`. -/
inductive SubmitResult where
  | badRequest (required : List String)
  | createdMongo (data : ScoreRecord)
  | createdMemory (data : ScoreRecord) (rank : Int) (totalPlayers : Nat)
  deriving DecidableEq, Repr

/-- The HTTP status carried by each submit response. -/
def SubmitResult.status : SubmitResult → Nat
  | .badRequest _ => 400
  | .createdMongo _ => 201
  | .createdMemory _ _ _ => 201

/-- The record echoed in the `data` field of a 201 response. -/
def SubmitResult.dataRecord : SubmitResult → Option ScoreRecord
  | .badRequest _ => none
  | .createdMongo r => some r
  | .createdMemory r _ _ => some r

/-- The record built from a validated body (lines 203-207 and 222-228, the
same construction in both branches): truncated name, `parseFloat`-parsed
time, `accuracy || 100`. -/
def mkRecord (id date : Nat) (body : SubmitBody) : ScoreRecord :=
  { id := id, name := (body.name.getD "").take 20, time := body.time.getD 0,
    accuracy := jsOrDefault body.accuracy 100, date := date }

/-- `POST /api/score` (lines 186-256 of `src/server.js`).  `id` stands for
`Date.now()` (memory branch) or the store-assigned identifier (persistent
branch); `date` is the current timestamp. -/
def handleSubmit (st : ServerState) (id date : Nat) (body : SubmitBody) :
    ServerState × SubmitResult :=
  if !(truthyName body.name) || !(truthyTime body.time) then
    (st, .badRequest ["name", "time"])
  else
    let record := mkRecord id date body
    if st.mongoConnected then
      ({ st with mongo := st.mongo ++ [record] }, .createdMongo record)
    else
      let newLb := submitStep st.memory record
      ({ st with memory := newLb },
        .createdMemory record (jsFindIndex (fun s => s.id == id) newLb + 1) newLb.length)

/-- The empty-leaderboard message of lines 274 and 284. -/
def msgEmpty : String := "暫無紀錄，成為第一個挑戰者！"

/-- The success message of lines 274 and 284. -/
def msgLoaded : String := "排行榜加載成功"

/-- The JSON body of a `GET /api/leaderboard` response. -/
structure ReadResult where
  leaderboard : List ScoreRecord
  count : Nat
  message : String
  deriving DecidableEq, Repr

/-- `GET /api/leaderboard` (lines 259-295): persistent branch sorts by time
ascending and limits to 20, with the total document count; memory branch
slices the (already sorted) list to 20 with its length. -/
def handleLeaderboard (st : ServerState) : ReadResult :=
  if st.mongoConnected then
    let scores := (List.insertionSort timeLe st.mongo).take 20
    { leaderboard := scores, count := st.mongo.length,
      message := if scores.length == 0 then msgEmpty else msgLoaded }
  else
    { leaderboard := st.memory.take 20, count := st.memory.length,
      message := if st.memory.length == 0 then msgEmpty else msgLoaded }

/-- `DELETE /api/leaderboard` (lines 298-330): empties whichever store is
active. -/
def handleClear (st : ServerState) : ServerState :=
  if st.mongoConnected then { st with mongo := [] } else { st with memory := [] }

/-- The in-memory leaderboard reached from the cleared (empty) list by a
sequence of stored memory submissions: the fold of the push/sort/trim step. -/
def memAfter (rs : List ScoreRecord) : List ScoreRecord :=
  rs.foldl submitStep []

/-! ### Auxiliary lemmas about the push / sort / trim step -/

theorem trimTo50_eq_take (l : List ScoreRecord) : trimTo50 l = l.take 50 := by
  unfold trimTo50
  by_cases h : l.length > 50
  · simp [h]
  · simp [h, List.take_of_length_le (Nat.le_of_not_lt h)]

theorem submitStep_eq_take (lb : List ScoreRecord) (r : ScoreRecord) :
    submitStep lb r = (List.insertionSort timeLe (lb ++ [r])).take 50 := by
  rw [submitStep, trimTo50_eq_take]

/-- Taking `n` elements of an ordered insertion only depends on the first `n`
elements of the underlying list. -/
theorem take_orderedInsert_take {α : Type} (r : α → α → Prop) [DecidableRel r] (t : α)
    (l : List α) : ∀ n : Nat,
      (List.orderedInsert r t (l.take n)).take n = (List.orderedInsert r t l).take n := by
  induction l with
  | nil => intro n; simp
  | cons b l ih =>
    intro n
    match n with
    | 0 => simp
    | n + 1 =>
      rw [List.take_succ_cons]
      simp only [List.orderedInsert]
      by_cases h : r t b
      · rw [if_pos h, if_pos h, List.take_succ_cons, List.take_succ_cons]
        congr 1
        match n with
        | 0 => simp
        | m + 1 =>
          rw [List.take_succ_cons, List.take_succ_cons, List.take_take,
            Nat.min_eq_left (Nat.le_succ m)]
      · rw [if_neg h, if_neg h, List.take_succ_cons, List.take_succ_cons]
        congr 1
        exact ih n

/-- Sorting a list with one element appended is an ordered insertion into the
sorted list (over a linear order, where the sorted order is unique). -/
theorem insertionSort_append_singleton {α : Type} [LinearOrder α] (l : List α) (t : α) :
    List.insertionSort (· ≤ ·) (l ++ [t])
      = List.orderedInsert (· ≤ ·) t (List.insertionSort (· ≤ ·) l) := by
  refine List.eq_of_perm_of_sorted ?_ (List.sorted_insertionSort _ _)
    (List.Sorted.orderedInsert t _ (List.sorted_insertionSort _ l))
  exact ((List.perm_insertionSort _ _).trans (List.perm_append_singleton t l)).trans
    ((List.perm_orderedInsert _ t _).trans
      ((List.perm_insertionSort _ l).cons t)).symm

/-- Iterating "append, sort, keep the first 50" over a linear order computes
the first 50 elements of the fully sorted list. -/
theorem foldl_sortTake (ts : List ℚ) :
    ts.foldl (fun s t => (List.insertionSort (· ≤ ·) (s ++ [t])).take 50) []
      = (List.insertionSort (· ≤ ·) ts).take 50 := by
  induction ts using List.reverseRecOn with
  | nil => rfl
  | append_singleton ts t ih =>
    rw [List.foldl_append, List.foldl_cons, List.foldl_nil, ih,
      insertionSort_append_singleton, insertionSort_append_singleton,
      List.Sorted.insertionSort_eq
        (List.Pairwise.sublist (List.take_sublist 50 _) (List.sorted_insertionSort _ ts)),
      take_orderedInsert_take]

/-- The time projection of the record-level sort is the rational-level sort
(the comparator only reads the `time` field). -/
theorem map_time_insertionSort (l : List ScoreRecord) :
    (List.insertionSort timeLe l).map ScoreRecord.time
      = List.insertionSort (· ≤ ·) (l.map ScoreRecord.time) :=
  List.map_insertionSort timeLe (· ≤ ·) ScoreRecord.time l (fun _ _ _ _ => Iff.rfl)

/-- The time projection of one submit step. -/
theorem map_time_submitStep (lb : List ScoreRecord) (r : ScoreRecord) :
    (submitStep lb r).map ScoreRecord.time
      = (List.insertionSort (· ≤ ·) (lb.map ScoreRecord.time ++ [r.time])).take 50 := by
  rw [submitStep_eq_take, List.map_take, map_time_insertionSort, List.map_append, List.map_cons,
    List.map_nil]

/-- The time projection of the whole submission fold. -/
theorem map_time_memAfter (rs : List ScoreRecord) :
    (memAfter rs).map ScoreRecord.time
      = (List.insertionSort (· ≤ ·) (rs.map ScoreRecord.time)).take 50 := by
  rw [← foldl_sortTake]
  suffices h : ∀ lb : List ScoreRecord,
      (rs.foldl submitStep lb).map ScoreRecord.time
        = (rs.map ScoreRecord.time).foldl
            (fun s t => (List.insertionSort (· ≤ ·) (s ++ [t])).take 50)
            (lb.map ScoreRecord.time) from h []
  induction rs with
  | nil => intro lb; rfl
  | cons r rs ih =>
    intro lb
    rw [List.foldl_cons, List.map_cons, List.foldl_cons, ih, map_time_submitStep]

/-- Every record of the trimmed sorted list comes from the pushed list. -/
theorem mem_submitStep {lb : List ScoreRecord} {r s : ScoreRecord}
    (h : s ∈ submitStep lb r) : s ∈ lb ∨ s = r := by
  rw [submitStep_eq_take] at h
  have h2 := (List.take_sublist 50 _).subset h
  rw [List.mem_insertionSort, List.mem_append] at h2
  simpa using h2

/-- An invalid body (falsy name or time) short-circuits to the 400 response
and leaves the state untouched. -/
theorem handleSubmit_invalid (st : ServerState) (id date : Nat) (body : SubmitBody)
    (h : truthyName body.name = false ∨ truthyTime body.time = false) :
    handleSubmit st id date body = (st, .badRequest ["name", "time"]) := by
  unfold handleSubmit
  rcases h with h | h <;> simp [h]

/-- A valid body in memory mode takes the memory branch. -/
theorem handleSubmit_memory (st : ServerState) (id date : Nat) (body : SubmitBody)
    (hmode : st.mongoConnected = false)
    (hname : truthyName body.name = true) (htime : truthyTime body.time = true) :
    handleSubmit st id date body =
      ({ st with memory := submitStep st.memory (mkRecord id date body) },
        .createdMemory (mkRecord id date body)
          (jsFindIndex (fun s => s.id == id)
            (submitStep st.memory (mkRecord id date body)) + 1)
          (submitStep st.memory (mkRecord id date body)).length) := by
  unfold handleSubmit
  simp [hname, htime, hmode]

/-- A valid body in persistent mode takes the persistent branch. -/
theorem handleSubmit_mongo (st : ServerState) (id date : Nat) (body : SubmitBody)
    (hmode : st.mongoConnected = true)
    (hname : truthyName body.name = true) (htime : truthyTime body.time = true) :
    handleSubmit st id date body =
      ({ st with mongo := st.mongo ++ [mkRecord id date body] },
        .createdMongo (mkRecord id date body)) := by
  unfold handleSubmit
  simp [hname, htime, hmode]

theorem jsFindIndex_cons (p : ScoreRecord → Bool) (x : ScoreRecord) (xs : List ScoreRecord) :
    jsFindIndex p (x :: xs)
      = if p x then 0
        else (if jsFindIndex p xs = -1 then -1 else jsFindIndex p xs + 1) := rfl

/-- `findIndex` returns -1 when no element matches. -/
theorem jsFindIndex_eq_neg_one (p : ScoreRecord → Bool) :
    ∀ l : List ScoreRecord, (∀ s ∈ l, p s = false) → jsFindIndex p l = -1 := by
  intro l
  induction l with
  | nil => intro _; rfl
  | cons x xs ih =>
    intro h
    have hx : p x = false := h x (List.mem_cons_self x xs)
    have hxs := ih (fun s hs => h s (List.mem_cons_of_mem x hs))
    simp [jsFindIndex_cons, hx, hxs]

/-- When `rec` is the only element whose id matches, `findIndex` computes its
(first-occurrence) position. -/
theorem jsFindIndex_spec (i : Nat) (rec : ScoreRecord) (hrec : rec.id = i) :
    ∀ l : List ScoreRecord, (∀ s ∈ l, s.id = i → s = rec) → rec ∈ l →
      ∃ k : Nat, jsFindIndex (fun s => s.id == i) l = (k : Int) ∧ l[k]? = some rec ∧
        ∀ j, j < k → l[j]? ≠ some rec := by
  intro l
  induction l with
  | nil => intro _ hmem; cases hmem
  | cons x xs ih =>
    intro hids hmem
    by_cases hx : x.id = i
    · have hxrec : x = rec := hids x (List.mem_cons_self x xs) hx
      refine ⟨0, by simp [jsFindIndex_cons, hx], by simp [hxrec], fun j hj => by omega⟩
    · have hxrec : x ≠ rec := fun he => hx (by rw [he, hrec])
      have hmem2 : rec ∈ xs := by
        rcases List.mem_cons.mp hmem with he | h2
        · exact absurd he.symm hxrec
        · exact h2
      obtain ⟨k, hk, hget, hfirst⟩ :=
        ih (fun s hs => hids s (List.mem_cons_of_mem x hs)) hmem2
      refine ⟨k + 1, ?_, ?_, ?_⟩
      · rw [jsFindIndex_cons, if_neg (by simp [hx]), hk, if_neg (by omega)]
        push_cast
        ring
      · simpa using hget
      · intro j hj
        match j with
        | 0 =>
          simp only [List.getElem?_cons_zero]
          exact fun he => hxrec (Option.some.inj he)
        | m + 1 =>
          simp only [List.getElem?_cons_succ]
          exact hfirst m (by omega)

/-- C1's concrete 51-submission input. -/
def c1rec (i : Nat) : ScoreRecord := ⟨i, "p", (i : ℚ), 100, 0⟩

def c1subs : List ScoreRecord := (List.range 51).map c1rec

/-- **C1**: along any sequence of stored memory submissions since the last
clear, the in-memory leaderboard stays sorted ascending by time with length
at most 50; its times are the 50 lowest submitted time values (the length-50
prefix of the sorted list of all submitted times); in particular after 51
submissions its length is exactly 50. -/
theorem memory_sorted_capped_lowest50 (rs : List ScoreRecord) :
    (memAfter rs).Sorted timeLe ∧
    (memAfter rs).length ≤ 50 ∧
    (memAfter rs).map ScoreRecord.time
      = (List.insertionSort (· ≤ ·) (rs.map ScoreRecord.time)).take 50 ∧
    (rs.length = 51 → (memAfter rs).length = 50) := by
  have hmap := map_time_memAfter rs
  have hlen : (memAfter rs).length = min 50 rs.length := by
    have h := congrArg List.length hmap
    simpa using h
  refine ⟨?_, ?_, hmap, ?_⟩
  · have hsorted : ((memAfter rs).map ScoreRecord.time).Sorted (· ≤ ·) := by
      rw [hmap]
      exact List.Pairwise.sublist (List.take_sublist 50 _) (List.sorted_insertionSort _ _)
    have hp := List.pairwise_map.mp hsorted
    exact hp
  · rw [hlen]
    exact inf_le_left
  · intro h51
    rw [hlen, h51]
    decide

/-- Witness for C1's 51-submission hypothesis at a concrete input. -/
theorem memory_sorted_capped_lowest50_witness :
    c1subs.length = 51 ∧ (memAfter c1subs).length = 50 :=
  ⟨by simp [c1subs], (memory_sorted_capped_lowest50 c1subs).2.2.2 (by simp [c1subs])⟩

/-- A full (50-entry) in-memory leaderboard with times 1..50. -/
def lb50 : List ScoreRecord :=
  (List.range 50).map (fun i => ⟨i + 1, "p", Rat.ofInt (Int.ofNat (i + 1)), 100, 0⟩)

/-- Memory-mode server state holding the full leaderboard. -/
def st50 : ServerState := ⟨false, [], lb50⟩

/-- A valid submission slower than everything on the full leaderboard. -/
def bodySlow : SubmitBody := ⟨some "Zoe", some 100, none⟩

/-- **C2** (counterexample to the claim as stated): submitting a 51st, slowest
time into a full memory leaderboard trims the new record away; the response
then carries rank 0, which is no 1-based position of the record in the list —
the record is not in the list at all. -/
theorem submit_memory_rank_counterexample :
    (handleSubmit st50 51 0 bodySlow).2
        = SubmitResult.createdMemory (mkRecord 51 0 bodySlow) 0
            (handleSubmit st50 51 0 bodySlow).1.memory.length ∧
      mkRecord 51 0 bodySlow ∉ (handleSubmit st50 51 0 bodySlow).1.memory ∧
      ¬ ∃ k : Nat, (0 : Int) = (k : Int) + 1 ∧
          ((handleSubmit st50 51 0 bodySlow).1.memory)[k]? = some (mkRecord 51 0 bodySlow) := by
  refine ⟨by decide, by decide, ?_⟩
  rintro ⟨k, hk, -⟩
  omega

/-- **C2** (amended): a valid memory-mode submission with a fresh id returns
the stored record and `totalPlayers` equal to the new list length; its rank
is the record's 1-based first position in the new in-memory list whenever the
record survives the 50-entry trim, and 0 when it was trimmed away. -/
theorem submit_memory_rank (st : ServerState) (id date : Nat) (body : SubmitBody)
    (hmode : st.mongoConnected = false)
    (hname : truthyName body.name = true) (htime : truthyTime body.time = true)
    (hfresh : ∀ s ∈ st.memory, s.id ≠ id) :
    ∃ rank : Int,
      (handleSubmit st id date body).2
        = SubmitResult.createdMemory (mkRecord id date body) rank
            (handleSubmit st id date body).1.memory.length ∧
      (mkRecord id date body ∈ (handleSubmit st id date body).1.memory →
        ∃ k : Nat, rank = (k : Int) + 1 ∧
          ((handleSubmit st id date body).1.memory)[k]? = some (mkRecord id date body) ∧
          ∀ j, j < k →
            ((handleSubmit st id date body).1.memory)[j]? ≠ some (mkRecord id date body)) ∧
      (mkRecord id date body ∉ (handleSubmit st id date body).1.memory → rank = 0) := by
  rw [handleSubmit_memory st id date body hmode hname htime]
  refine ⟨jsFindIndex (fun s => s.id == id) (submitStep st.memory (mkRecord id date body)) + 1,
    rfl, ?_, ?_⟩
  · intro hmem
    have hids : ∀ s ∈ submitStep st.memory (mkRecord id date body),
        s.id = id → s = mkRecord id date body := by
      intro s hs hid
      rcases mem_submitStep hs with h | h
      · exact absurd hid (hfresh s h)
      · exact h
    obtain ⟨k, hk, hget, hfirst⟩ := jsFindIndex_spec id (mkRecord id date body) rfl _ hids hmem
    exact ⟨k, by rw [hk], hget, hfirst⟩
  · intro hnot
    have hall : ∀ s ∈ submitStep st.memory (mkRecord id date body),
        (fun s => s.id == id) s = false := by
      intro s hs
      rcases mem_submitStep hs with h | h
      · simp [hfresh s h]
      · exact absurd (h ▸ hs) hnot
    rw [jsFindIndex_eq_neg_one _ _ hall]
    rfl

/-- Witness for C2's amended theorem: first submission into an empty memory
store gets rank 1 (position 0). -/
theorem submit_memory_rank_witness :
    ∃ rank : Int,
      (handleSubmit ⟨false, [], []⟩ 7 0 ⟨some "Al", some 2, none⟩).2
        = SubmitResult.createdMemory (mkRecord 7 0 ⟨some "Al", some 2, none⟩) rank
            (handleSubmit ⟨false, [], []⟩ 7 0 ⟨some "Al", some 2, none⟩).1.memory.length ∧
      (mkRecord 7 0 ⟨some "Al", some 2, none⟩
          ∈ (handleSubmit ⟨false, [], []⟩ 7 0 ⟨some "Al", some 2, none⟩).1.memory →
        ∃ k : Nat, rank = (k : Int) + 1 ∧
          ((handleSubmit ⟨false, [], []⟩ 7 0 ⟨some "Al", some 2, none⟩).1.memory)[k]?
            = some (mkRecord 7 0 ⟨some "Al", some 2, none⟩) ∧
          ∀ j, j < k →
            ((handleSubmit ⟨false, [], []⟩ 7 0 ⟨some "Al", some 2, none⟩).1.memory)[j]?
              ≠ some (mkRecord 7 0 ⟨some "Al", some 2, none⟩)) ∧
      (mkRecord 7 0 ⟨some "Al", some 2, none⟩
          ∉ (handleSubmit ⟨false, [], []⟩ 7 0 ⟨some "Al", some 2, none⟩).1.memory → rank = 0) :=
  submit_memory_rank ⟨false, [], []⟩ 7 0 ⟨some "Al", some 2, none⟩ rfl (by decide) (by decide)
    (by intro s hs; cases hs)

/-- **C3**: a submission missing `name` or `time` (or both) yields HTTP 400
listing both required fields, and neither store changes. -/
theorem submit_missing_field (st : ServerState) (id date : Nat) (body : SubmitBody)
    (h : body.name = none ∨ body.time = none) :
    (handleSubmit st id date body).1 = st ∧
    (handleSubmit st id date body).2 = SubmitResult.badRequest ["name", "time"] ∧
    (handleSubmit st id date body).2.status = 400 := by
  have hinv : truthyName body.name = false ∨ truthyTime body.time = false := by
    rcases h with h | h
    · exact Or.inl (by rw [h]; rfl)
    · exact Or.inr (by rw [h]; rfl)
  rw [handleSubmit_invalid st id date body hinv]
  exact ⟨rfl, rfl, rfl⟩

/-- Witness for C3 at a concrete body missing `name`. -/
theorem submit_missing_field_witness :
    (handleSubmit ⟨true, [], []⟩ 1 0 ⟨none, some 5, none⟩).1 = ⟨true, [], []⟩ ∧
    (handleSubmit ⟨true, [], []⟩ 1 0 ⟨none, some 5, none⟩).2
      = SubmitResult.badRequest ["name", "time"] ∧
    (handleSubmit ⟨true, [], []⟩ 1 0 ⟨none, some 5, none⟩).2.status = 400 :=
  submit_missing_field ⟨true, [], []⟩ 1 0 ⟨none, some 5, none⟩ (Or.inl rfl)

/-- **C4** (counterexample to the claim as stated): accuracy 0 lies in the
range 0-100, yet `accuracy || 100` replaces it by the default, so the stored
record carries 100, not the supplied value. -/
theorem accuracy_default_counterexample :
    (⟨some "Al", some 5, some 0⟩ : SubmitBody).accuracy = some 0 ∧
    (0 : ℚ) ≤ 0 ∧ (0 : ℚ) ≤ 100 ∧
    (handleSubmit ⟨false, [], []⟩ 1 0 ⟨some "Al", some 5, some 0⟩).1.memory
      = [{ id := 1, name := "Al", time := 5, accuracy := 100, date := 0 }] ∧
    (100 : ℚ) ≠ 0 :=
  ⟨rfl, by norm_num, by norm_num, by decide, by norm_num⟩

/-- **C4** (amended): for a valid submission, absent accuracy is stored as
100 and a supplied accuracy in the half-open range 0 < a ≤ 100 is stored
unchanged, in both storage modes; a supplied accuracy 0 is falsy and is
stored as the default 100. -/
theorem accuracy_default (st : ServerState) (id date : Nat) (body : SubmitBody)
    (hname : truthyName body.name = true) (htime : truthyTime body.time = true) :
    (handleSubmit st id date body).2.dataRecord = some (mkRecord id date body) ∧
    (st.mongoConnected = true →
      (handleSubmit st id date body).1.mongo = st.mongo ++ [mkRecord id date body]) ∧
    (st.mongoConnected = false →
      (handleSubmit st id date body).1.memory = submitStep st.memory (mkRecord id date body)) ∧
    (body.accuracy = none → (mkRecord id date body).accuracy = 100) ∧
    (∀ a : ℚ, body.accuracy = some a → 0 < a → a ≤ 100 → (mkRecord id date body).accuracy = a) ∧
    (body.accuracy = some 0 → (mkRecord id date body).accuracy = 100) := by
  refine ⟨?_, ?_, ?_, ?_, ?_, ?_⟩
  · by_cases hm : st.mongoConnected = true
    · rw [handleSubmit_mongo st id date body hm hname htime]; rfl
    · rw [handleSubmit_memory st id date body (Bool.eq_false_iff.mpr hm) hname htime]; rfl
  · intro hm
    rw [handleSubmit_mongo st id date body hm hname htime]
  · intro hm
    rw [handleSubmit_memory st id date body hm hname htime]
  · intro ha
    simp [mkRecord, jsOrDefault, ha]
  · intro a ha hpos _
    simp [mkRecord, jsOrDefault, ha, ne_of_gt hpos]
  · intro ha
    simp [mkRecord, jsOrDefault, ha]

/-- Witness for C4's amended theorem: a supplied nonzero in-range accuracy is
stored unchanged. -/
theorem accuracy_default_witness :
    (mkRecord 1 0 ⟨some "Al", some 5, some 50⟩).accuracy = 50 :=
  (accuracy_default ⟨false, [], []⟩ 1 0 ⟨some "Al", some 5, some 50⟩ (by decide)
      (by decide)).2.2.2.2.1 50 rfl (by norm_num) (by norm_num)

/-- **C5**: a valid submission stores exactly the first 20 characters of the
submitted name, and a name of at most 20 characters unchanged, in both
storage modes. -/
theorem name_truncated (st : ServerState) (id date : Nat) (body : SubmitBody)
    (hname : truthyName body.name = true) (htime : truthyTime body.time = true) :
    (handleSubmit st id date body).2.dataRecord = some (mkRecord id date body) ∧
    (st.mongoConnected = true →
      (handleSubmit st id date body).1.mongo = st.mongo ++ [mkRecord id date body]) ∧
    (st.mongoConnected = false →
      (handleSubmit st id date body).1.memory = submitStep st.memory (mkRecord id date body)) ∧
    (∀ nm : String, body.name = some nm →
      (mkRecord id date body).name.data = nm.data.take 20 ∧
      (nm.length ≤ 20 → (mkRecord id date body).name = nm)) := by
  refine ⟨?_, ?_, ?_, ?_⟩
  · by_cases hm : st.mongoConnected = true
    · rw [handleSubmit_mongo st id date body hm hname htime]; rfl
    · rw [handleSubmit_memory st id date body (Bool.eq_false_iff.mpr hm) hname htime]; rfl
  · intro hm
    rw [handleSubmit_mongo st id date body hm hname htime]
  · intro hm
    rw [handleSubmit_memory st id date body hm hname htime]
  · intro nm hnm
    constructor
    · simp [mkRecord, hnm, String.take_eq]
    · intro hle
      have : (mkRecord id date body).name = nm.take 20 := by simp [mkRecord, hnm]
      rw [this, String.take_eq, List.take_of_length_le hle]

/-- Witness for C5 at a 25-character name (truncated) and a 2-character name
(kept). -/
theorem name_truncated_witness :
    (mkRecord 1 0 ⟨some "abcdefghijklmnopqrstuvwxy", some 5, none⟩).name.data
        = "abcdefghijklmnopqrstuvwxy".data.take 20 ∧
    (mkRecord 2 0 ⟨some "Al", some 5, none⟩).name = "Al" :=
  ⟨((name_truncated ⟨false, [], []⟩ 1 0 ⟨some "abcdefghijklmnopqrstuvwxy", some 5, none⟩
      (by decide) (by decide)).2.2.2 "abcdefghijklmnopqrstuvwxy" rfl).1,
   ((name_truncated ⟨false, [], []⟩ 2 0 ⟨some "Al", some 5, none⟩
      (by decide) (by decide)).2.2.2 "Al" rfl).2 (by decide)⟩

/-- **C6**: a memory-mode read returns the first `min 20 length` stored
records in stored order, the full list length as `count`, and the
distinguishable empty-leaderboard message exactly when the list is empty. -/
theorem read_memory (st : ServerState) (hmode : st.mongoConnected = false) :
    (handleLeaderboard st).leaderboard = st.memory.take 20 ∧
    (handleLeaderboard st).leaderboard.length = min 20 st.memory.length ∧
    (handleLeaderboard st).count = st.memory.length ∧
    (st.memory = [] → (handleLeaderboard st).message = msgEmpty) ∧
    (st.memory ≠ [] → (handleLeaderboard st).message = msgLoaded) ∧
    msgEmpty ≠ msgLoaded := by
  refine ⟨?_, ?_, ?_, ?_, ?_, by decide⟩
  · simp [handleLeaderboard, hmode]
  · simp [handleLeaderboard, hmode]
  · simp [handleLeaderboard, hmode]
  · intro h
    simp [handleLeaderboard, hmode, h]
  · intro h
    simp [handleLeaderboard, hmode, List.length_eq_zero.ne.mpr h]

/-- Witness for C6 on an empty and a nonempty memory store. -/
theorem read_memory_witness :
    (handleLeaderboard ⟨false, [], []⟩).message = msgEmpty ∧
    (handleLeaderboard ⟨false, [], [⟨1, "a", 5, 100, 0⟩]⟩).count = 1 :=
  ⟨(read_memory ⟨false, [], []⟩ rfl).2.2.2.1 rfl,
   (read_memory ⟨false, [], [⟨1, "a", 5, 100, 0⟩]⟩ rfl).2.2.1⟩

/-- **C7**: in memory mode, clearing and then immediately reading yields the
empty leaderboard, count 0 and the empty-leaderboard message. -/
theorem clear_then_read (st : ServerState) (hmode : st.mongoConnected = false) :
    (handleLeaderboard (handleClear st)).leaderboard = [] ∧
    (handleLeaderboard (handleClear st)).count = 0 ∧
    (handleLeaderboard (handleClear st)).message = msgEmpty := by
  refine ⟨?_, ?_, ?_⟩ <;> simp [handleClear, handleLeaderboard, hmode]

/-- Witness for C7 at a nonempty concrete state. -/
theorem clear_then_read_witness :
    (handleLeaderboard (handleClear ⟨false, [], [⟨1, "a", 5, 100, 0⟩]⟩)).leaderboard = [] ∧
    (handleLeaderboard (handleClear ⟨false, [], [⟨1, "a", 5, 100, 0⟩]⟩)).count = 0 ∧
    (handleLeaderboard (handleClear ⟨false, [], [⟨1, "a", 5, 100, 0⟩]⟩)).message = msgEmpty :=
  clear_then_read ⟨false, [], [⟨1, "a", 5, 100, 0⟩]⟩ rfl

/-- A valid submission faster than the slowest entry of a full leaderboard. -/
def bodyFast : SubmitBody := ⟨some "Amy", some 1, none⟩

/-- **C8** (counterexample to the claim as stated): submitting into a full
50-entry memory leaderboard evicts the slowest existing record, so a Submit
call does remove an existing record. -/
theorem submit_frame_counterexample :
    (⟨50, "p", Rat.ofInt (Int.ofNat 50), 100, 0⟩ : ScoreRecord) ∈ st50.memory ∧
    (⟨50, "p", Rat.ofInt (Int.ofNat 50), 100, 0⟩ : ScoreRecord)
      ∉ (handleSubmit st50 51 0 bodyFast).1.memory :=
  ⟨by decide, by decide⟩

/-- **C8** (amended): memory-mode records are never mutated — after any
Submit every stored record is either an old record kept verbatim or the
newly created one; an invalid Submit changes nothing; and while the list
holds fewer than 50 entries no Submit removes an existing record (eviction
can only happen through the 50-entry trim on a full list). -/
theorem submit_frame (st : ServerState) (id date : Nat) (body : SubmitBody)
    (hmode : st.mongoConnected = false) :
    ((truthyName body.name = false ∨ truthyTime body.time = false) →
      (handleSubmit st id date body).1 = st) ∧
    (∀ s ∈ (handleSubmit st id date body).1.memory,
      s ∈ st.memory ∨ s = mkRecord id date body) ∧
    (st.memory.length < 50 → ∀ s ∈ st.memory, s ∈ (handleSubmit st id date body).1.memory) := by
  by_cases hv : truthyName body.name = true ∧ truthyTime body.time = true
  · rw [handleSubmit_memory st id date body hmode hv.1 hv.2]
    refine ⟨?_, ?_, ?_⟩
    · rintro (h | h)
      · rw [hv.1] at h; cases h
      · rw [hv.2] at h; cases h
    · intro s hs
      exact mem_submitStep hs
    · intro hlen s hs
      have hle : (List.insertionSort timeLe (st.memory ++ [mkRecord id date body])).length ≤ 50 := by
        rw [List.length_insertionSort, List.length_append]
        simp only [List.length_singleton]
        omega
      rw [submitStep_eq_take, List.take_of_length_le hle, List.mem_insertionSort,
        List.mem_append]
      exact Or.inl hs
  · have hv2 : truthyName body.name = false ∨ truthyTime body.time = false := by
      simp only [not_and_or, Bool.not_eq_true] at hv
      exact hv
    rw [handleSubmit_invalid st id date body hv2]
    exact ⟨fun _ => rfl, fun s hs => Or.inl hs, fun _ s hs => hs⟩

/-- Witness for C8's amended theorem: below the cap, an existing record
survives a further submission. -/
theorem submit_frame_witness :
    (⟨1, "a", 5, 100, 0⟩ : ScoreRecord) ∈
      (handleSubmit ⟨false, [], [⟨1, "a", 5, 100, 0⟩]⟩ 2 0 ⟨some "Bo", some 3, none⟩).1.memory :=
  (submit_frame ⟨false, [], [⟨1, "a", 5, 100, 0⟩]⟩ 2 0 ⟨some "Bo", some 3, none⟩ rfl).2.2
    (by decide) ⟨1, "a", 5, 100, 0⟩ (by decide)

/-- **C10**: because presence is checked by JS truthiness, a body with
`time` 0 or `name` the empty string — both present — is rejected exactly
like a missing field: HTTP 400 with both fields required, state unchanged. -/
theorem truthiness_rejects_zero_and_empty (st : ServerState) (id date : Nat) :
    (∀ (nm : Option String) (acc : Option ℚ),
      handleSubmit st id date ⟨nm, some 0, acc⟩ = (st, .badRequest ["name", "time"])) ∧
    (∀ (t : Option ℚ) (acc : Option ℚ),
      handleSubmit st id date ⟨some "", t, acc⟩ = (st, .badRequest ["name", "time"])) ∧
    (SubmitResult.badRequest ["name", "time"]).status = 400 := by
  refine ⟨?_, ?_, rfl⟩
  · intro nm acc
    have h : truthyTime (some (0 : ℚ)) = false := by decide
    exact handleSubmit_invalid _ _ _ _ (Or.inr h)
  · intro t acc
    have h : truthyName (some "") = false := by decide
    exact handleSubmit_invalid _ _ _ _ (Or.inl h)

/-! ### Error-handling model for the handler boundary

The handlers wrap their whole body in try/catch and the route table ends in
a global error middleware, so any exception becomes a JSON 500 response.
To state this, the submit path is re-embedded over dynamic JS values: a
truthy non-string `name` makes `name.substring(0, 20)` throw a TypeError,
`parseFloat` of non-numeric input produces NaN (modelled as the absent
rational), and a rejected store operation surfaces as a thrown store error.
The string number grammar of `parseFloat` and the outcome of the awaited
store operations are oracles passed as parameters. -/

/-- A JSON / JS value as it can appear in a request body field. -/
inductive JsVal where
  | undef
  | null
  | bool (b : Bool)
  | num (q : Option ℚ)
  | str (s : String)
  deriving DecidableEq, Repr

/-- JS truthiness: `undefined`, `null`, `false`, `0`, `NaN` and `""` are
falsy. -/
def JsVal.truthy : JsVal → Bool
  | .undef => false
  | .null => false
  | .bool b => b
  | .num none => false
  | .num (some q) => !(q == 0)
  | .str s => !(s == "")

/-- A thrown JS exception, of the kinds reachable inside these handlers. -/
inductive JsError where
  | typeError (msg : String)
  | storeError (msg : String)
  deriving DecidableEq, Repr

/-- The exception's `error.message`. -/
def JsError.message : JsError → String
  | .typeError m => m
  | .storeError m => m

/-- `v.substring(0, 20)`: truncates a string receiver; any non-string
receiver throws a TypeError. -/
def jsSubstring20 : JsVal → Except JsError String
  | .str s => .ok (s.take 20)
  | _ => .error (.typeError "substring is not a function")

/-- `parseFloat(v)`: numbers pass through, strings go through the number
grammar oracle `pf`, everything else is NaN. -/
def jsParseFloat (pf : String → Option ℚ) : JsVal → Option ℚ
  | .num q => q
  | .str s => pf s
  | _ => none

/-- A stored record of the dynamic model (`time` may be NaN, `accuracy` is
whatever `accuracy || 100` produced). -/
structure JsRecord where
  id : Nat
  name : String
  time : Option ℚ
  accuracy : JsVal
  date : Nat
  deriving DecidableEq, Repr

/-- The comparator `(a, b) => a.time - b.time` under the ECMAScript rule
that a NaN comparator result counts as equal. -/
def jsTimeLeB (a b : JsRecord) : Bool :=
  match a.time, b.time with
  | some x, some y => decide (x ≤ y)
  | _, _ => true

def jsTimeLe (a b : JsRecord) : Prop := jsTimeLeB a b = true

instance : DecidableRel jsTimeLe := fun a b => inferInstanceAs (Decidable (jsTimeLeB a b = true))

/-- A request body of arbitrary JS values (`undef` = field absent). -/
structure JsBody where
  name : JsVal
  time : JsVal
  accuracy : JsVal
  deriving DecidableEq, Repr

/-- Server state in the dynamic model. -/
structure JsState where
  mongoConnected : Bool
  mongo : List JsRecord
  memory : List JsRecord
  deriving DecidableEq, Repr

/-- A JSON response: its HTTP status and the error message, if any. -/
structure JsResponse where
  status : Nat
  error : Option String
  deriving DecidableEq, Repr

/-- The 50-entry trim of the dynamic model. -/
def jsTrim50 (l : List JsRecord) : List JsRecord :=
  if l.length > 50 then l.take 50 else l

/-- The body of the `POST /api/score` try block over dynamic values:
validation, `name.substring(0, 20)` (which may throw), then either the
awaited store save (whose rejection rethrows) or the memory push / sort /
trim. -/
def submitBodyJs (pf : String → Option ℚ) (save : Except JsError JsRecord)
    (st : JsState) (id date : Nat) (body : JsBody) :
    Except JsError (JsState × JsResponse) :=
  if !(body.name.truthy) || !(body.time.truthy) then
    .ok (st, ⟨400, some "缺少必要參數"⟩)
  else
    match jsSubstring20 body.name with
    | .error e => .error e
    | .ok nm =>
      if st.mongoConnected then
        match save with
        | .error e => .error e
        | .ok saved => .ok ({ st with mongo := st.mongo ++ [saved] }, ⟨201, none⟩)
      else
        let record : JsRecord :=
          ⟨id, nm, jsParseFloat pf body.time,
            if body.accuracy.truthy then body.accuracy else .num (some 100), date⟩
        .ok ({ st with memory := jsTrim50 (List.insertionSort jsTimeLe (st.memory ++ [record])) },
          ⟨201, none⟩)

/-- The try/catch boundary: a thrown error becomes a 500 JSON response with
the error's message and the state is left as it was. -/
def catchWrap (st : JsState) (r : Except JsError (JsState × JsResponse)) :
    JsState × JsResponse :=
  match r with
  | .ok v => v
  | .error e => (st, ⟨500, some e.message⟩)

/-- The full `POST /api/score` handler of the dynamic model. -/
def handleSubmitJs (pf : String → Option ℚ) (save : Except JsError JsRecord)
    (st : JsState) (id date : Nat) (body : JsBody) : JsState × JsResponse :=
  catchWrap st (submitBodyJs pf save st id date body)

/-- The body of the `GET /api/leaderboard` try block: in persistent mode the
awaited query may reject; the memory branch cannot throw. -/
def readBodyJs (find : Except JsError (List JsRecord)) (st : JsState) :
    Except JsError (JsState × JsResponse) :=
  if st.mongoConnected then
    match find with
    | .error e => .error e
    | .ok _ => .ok (st, ⟨200, none⟩)
  else .ok (st, ⟨200, none⟩)

/-- The full `GET /api/leaderboard` handler of the dynamic model. -/
def handleReadJs (find : Except JsError (List JsRecord)) (st : JsState) :
    JsState × JsResponse :=
  catchWrap st (readBodyJs find st)

/-- The body of the `DELETE /api/leaderboard` try block: in persistent mode
the awaited `deleteMany` may reject; the memory branch cannot throw. -/
def clearBodyJs (del : Except JsError Unit) (st : JsState) :
    Except JsError (JsState × JsResponse) :=
  if st.mongoConnected then
    match del with
    | .error e => .error e
    | .ok _ => .ok ({ st with mongo := [] }, ⟨200, none⟩)
  else .ok ({ st with memory := [] }, ⟨200, none⟩)

/-- The full `DELETE /api/leaderboard` handler of the dynamic model. -/
def handleClearJs (del : Except JsError Unit) (st : JsState) :
    JsState × JsResponse :=
  catchWrap st (clearBodyJs del st)

/-- A successful submit try block responds 400 or 201. -/
theorem submitBodyJs_ok_status (pf : String → Option ℚ) (save : Except JsError JsRecord)
    (st : JsState) (id date : Nat) (body : JsBody) (v : JsState × JsResponse)
    (h : submitBodyJs pf save st id date body = .ok v) :
    v.2.status = 400 ∨ v.2.status = 201 := by
  unfold submitBodyJs at h
  by_cases hv : (!(body.name.truthy) || !(body.time.truthy)) = true
  · rw [if_pos hv] at h
    cases h
    exact Or.inl rfl
  · rw [if_neg hv] at h
    cases hsub : jsSubstring20 body.name with
    | error e => rw [hsub] at h; cases h
    | ok nm =>
      rw [hsub] at h
      dsimp only at h
      by_cases hm : st.mongoConnected = true
      · rw [if_pos hm] at h
        cases hsave : save with
        | error e => rw [hsave] at h; cases h
        | ok saved =>
          rw [hsave] at h
          dsimp only at h
          cases h
          exact Or.inr rfl
      · rw [if_neg hm] at h
        cases h
        exact Or.inr rfl

/-- **C9**: every request to the submit, read and clear handlers produces a
JSON response (the handlers are total functions of the request and the store
oracles); its status is always one of 201/400/500 (submit) or 200/500
(read, clear); and any exception thrown inside a try block is caught and
converted into a 500 JSON error body carrying the error message, leaving
the state unchanged — no exception escapes a handler. -/
theorem handlers_total_and_catch (pf : String → Option ℚ)
    (save : Except JsError JsRecord) (find : Except JsError (List JsRecord))
    (del : Except JsError Unit) (st : JsState) (id date : Nat) (body : JsBody) :
    ((handleSubmitJs pf save st id date body).2.status = 201 ∨
      (handleSubmitJs pf save st id date body).2.status = 400 ∨
      (handleSubmitJs pf save st id date body).2.status = 500) ∧
    (∀ e, submitBodyJs pf save st id date body = .error e →
      handleSubmitJs pf save st id date body = (st, ⟨500, some e.message⟩)) ∧
    ((handleReadJs find st).2.status = 200 ∨ (handleReadJs find st).2.status = 500) ∧
    (∀ e, readBodyJs find st = .error e →
      handleReadJs find st = (st, ⟨500, some e.message⟩)) ∧
    ((handleClearJs del st).2.status = 200 ∨ (handleClearJs del st).2.status = 500) ∧
    (∀ e, clearBodyJs del st = .error e →
      handleClearJs del st = (st, ⟨500, some e.message⟩)) := by
  refine ⟨?_, ?_, ?_, ?_, ?_, ?_⟩
  · cases hsub : submitBodyJs pf save st id date body with
    | error e => right; right; rw [handleSubmitJs, hsub]; rfl
    | ok v =>
      rcases submitBodyJs_ok_status pf save st id date body v hsub with h | h
      · right; left; rw [handleSubmitJs, hsub]; exact h
      · left; rw [handleSubmitJs, hsub]; exact h
  · intro e he
    rw [handleSubmitJs, he]
    rfl
  · cases hf : readBodyJs find st with
    | error e => right; rw [handleReadJs, hf]; rfl
    | ok v =>
      left
      rw [handleReadJs, hf]
      unfold readBodyJs at hf
      by_cases hm : st.mongoConnected = true
      · rw [if_pos hm] at hf
        cases hfind : find with
        | error e => rw [hfind] at hf; cases hf
        | ok l => rw [hfind] at hf; cases hf; rfl
      · rw [if_neg hm] at hf; cases hf; rfl
  · intro e he
    rw [handleReadJs, he]
    rfl
  · cases hc : clearBodyJs del st with
    | error e => right; rw [handleClearJs, hc]; rfl
    | ok v =>
      left
      rw [handleClearJs, hc]
      unfold clearBodyJs at hc
      by_cases hm : st.mongoConnected = true
      · rw [if_pos hm] at hc
        cases hdel : del with
        | error e => rw [hdel] at hc; cases hc
        | ok u => rw [hdel] at hc; cases hc; rfl
      · rw [if_neg hm] at hc; cases hc; rfl
  · intro e he
    rw [handleClearJs, he]
    rfl

/-- Witness for C9: a truthy numeric `name` makes `substring` throw and the
submit handler answers 500 with the TypeError's message; a failing store
query and delete are likewise converted to 500 by read and clear. -/
theorem handlers_total_and_catch_witness :
    handleSubmitJs (fun _ => none) (.ok ⟨9, "x", some 1, .num (some 100), 0⟩)
        ⟨false, [], []⟩ 1 0 ⟨.num (some 5), .num (some 2), .undef⟩
      = (⟨false, [], []⟩, ⟨500, some "substring is not a function"⟩) ∧
    handleReadJs (.error (.storeError "find failed")) ⟨true, [], []⟩
      = (⟨true, [], []⟩, ⟨500, some "find failed"⟩) ∧
    handleClearJs (.error (.storeError "delete failed")) ⟨true, [], []⟩
      = (⟨true, [], []⟩, ⟨500, some "delete failed"⟩) :=
  ⟨(handlers_total_and_catch (fun _ => none) (.ok ⟨9, "x", some 1, .num (some 100), 0⟩)
      (.error (.storeError "find failed")) (.error (.storeError "delete failed"))
      ⟨false, [], []⟩ 1 0 ⟨.num (some 5), .num (some 2), .undef⟩).2.1
    (.typeError "substring is not a function") rfl,
   (handlers_total_and_catch (fun _ => none) (.ok ⟨9, "x", some 1, .num (some 100), 0⟩)
      (.error (.storeError "find failed")) (.error (.storeError "delete failed"))
      ⟨true, [], []⟩ 1 0 ⟨.num (some 5), .num (some 2), .undef⟩).2.2.2.1
    (.storeError "find failed") rfl,
   (handlers_total_and_catch (fun _ => none) (.ok ⟨9, "x", some 1, .num (some 100), 0⟩)
      (.error (.storeError "find failed")) (.error (.storeError "delete failed"))
      ⟨true, [], []⟩ 1 0 ⟨.num (some 5), .num (some 2), .undef⟩).2.2.2.2.2
    (.storeError "delete failed") rfl⟩

example : truthyName (some "") = false := by decide
example : truthyTime (some 0) = false := by decide
example : jsOrDefault (some 0) 100 = 100 := by decide
example :
    submitStep [⟨1, "a", 3, 100, 0⟩] ⟨2, "b", 1, 100, 0⟩ =
      [⟨2, "b", 1, 100, 0⟩, ⟨1, "a", 3, 100, 0⟩] := by decide

end KeyboardApi
